import Mathlib

/-!
# Souffle interpreter state: relation environment, counters and iterator pools

Shallow embedding of `src/Interpreter.h` (class `souffle::Interpreter`) and of
`src/ast/analysis/SumTypeBranches.h` (`SumTypeBranchesAnalysis::getType`).

Modelling conventions

* `std::map<K, V>` is an association list; a well-formed map holds each key at most once.
* A pointer to a heap object is the object's address, a natural number; `0` is `nullptr`.
* `size_t` is a 64-bit unsigned integer and `int` a 32-bit signed one (LP64); their
  arithmetic wraps, and each wrap is written out with `%`.
* `assert` failing, `exit` and a thrown exception are an `Except` error.
* `std::vector<T>` is a `List T`. A `resize` that cannot be served (a request above
  `max_size()`, or memory running out) throws and is not modelled; the theorems on the
  lookups either evaluate `resize` at requests of at most four entries or do not depend
  on what it returns.
* What `loadDLL` does outside the object, calling `dlopen` and writing to `std::cerr`, is
  recorded in a `Process`; the result of `dlopen` is a parameter.
-/

namespace souffle

/-! ## Machine integers -/

/-- Number of values of a `size_t`. -/
def SIZE_MOD : Nat := 2 ^ 64

/-- Largest `int`. -/
def INT_MAX : Int := 2 ^ 31 - 1

/-- Smallest `int`. -/
def INT_MIN : Int := -(2 ^ 31)

/-- Reduction of a mathematical value to the `size_t` holding it. -/
def wrapSize (n : Nat) : Nat := n % SIZE_MOD

/-- Reduction of a mathematical value to the `int` holding it (two's complement). -/
def wrapInt (z : Int) : Int := (z + 2 ^ 31) % 2 ^ 32 - 2 ^ 31

/-! ## Failures -/

/-- The ways in which a call can end without returning. -/
inductive Fault where
  | assertFailed
  | exited (status : Nat)
  | outOfRange
  deriving DecidableEq, Repr

deriving instance DecidableEq for Except

/-! ## `std::map` -/

/-- A `std::map<K, V>` as the list of its elements. -/
abbrev StdMap (κ ν : Type) := List (κ × ν)

namespace StdMap

variable {κ ν : Type} [DecidableEq κ]

/-- The keys of the map, one per element. -/
def keys (m : StdMap κ ν) : List κ := m.map Prod.fst

/-- Well-formedness of a `std::map`: no key occurs twice. -/
def WF (m : StdMap κ ν) : Prop := (keys m).Nodup

instance (m : StdMap κ ν) : Decidable (WF m) := by
  unfold WF; infer_instance

/-- `m.find(k)`: the mapped value of the element found (`pos->second`), `none` for `m.end()`. -/
def find : StdMap κ ν → κ → Option ν
  | [], _ => none
  | (k', v) :: t, k => if k' = k then some v else find t k

/-- `m.erase(k)`: removal by key. -/
def erase : StdMap κ ν → κ → StdMap κ ν
  | [], _ => []
  | (k', v) :: t, k => if k' = k then erase t k else (k', v) :: erase t k

/-- `m[k] = v`: overwrites the element with key `k`, or adds one when there is none. -/
def assign : StdMap κ ν → κ → ν → StdMap κ ν
  | [], k, v => [(k, v)]
  | (k', v') :: t, k, v => if k' = k then (k', v) :: t else (k', v') :: assign t k v

/-- `m.at(k)`: the mapped value, throwing `std::out_of_range` when the key is missing. -/
def at_ (m : StdMap κ ν) (k : κ) : Except Fault ν :=
  match find m k with
  | some v => Except.ok v
  | none => Except.error Fault.outOfRange

end StdMap

/-- Modelled from the spec: the helper `contains(map, key)` of
`souffle/utility/ContainerUtil.h` is not among the sources at hand; it is taken to tell
whether the key is in the map, that is, whether `find` does not give `end()`. -/
def contains {κ ν : Type} [DecidableEq κ] (m : StdMap κ ν) (k : κ) : Bool :=
  (StdMap.find m k).isSome

/-! ## `Interpreter` -/

/-- Address of an `InterpreterRelation` object on the heap. -/
abbrev RelationPtr := Nat

/-- The alias `relation_map` of the class. -/
abbrev relation_map := StdMap String RelationPtr

/-- Modelled from the spec: the class `RamRelation` is declared outside the sources at
hand; a relation is a named set of tuples, and the name is all the interpreter reads. -/
structure RamRelation where
  name : String
  deriving DecidableEq, Repr

/-- `RamRelation::getName`. -/
def RamRelation.getName (r : RamRelation) : String := r.name

/-- The data members of `Interpreter` that its member functions read or write, with the
iterator types of the pools (`index_set::iterator`, `InterpreterRelation::iterator`) as
parameters. `deleted` is not a member: it records the objects handed to `delete`. -/
structure Interpreter (IndexIter RelIter : Type) where
  environment : relation_map
  counter : Int
  iteration : Nat
  dll : Nat
  indexScanIteratorPool : List (IndexIter × IndexIter)
  indexChoiceIteratorPool : List (IndexIter × IndexIter)
  scanIteratorPool : List (RelIter × RelIter)
  choiceIteratorPool : List (RelIter × RelIter)
  deleted : List RelationPtr
  deriving DecidableEq, Repr

namespace Interpreter

variable {IndexIter RelIter : Type}

/-- State after the constructor: the default member initialisers. -/
def init : Interpreter IndexIter RelIter :=
  { environment := [], counter := 0, iteration := 0, dll := 0,
    indexScanIteratorPool := [], indexChoiceIteratorPool := [],
    scanIteratorPool := [], choiceIteratorPool := [], deleted := [] }

/-- `int getCounter()`. -/
def getCounter (s : Interpreter IndexIter RelIter) : Int := s.counter

/-- `int incCounter() { return counter++; }`: the value returned and the state left. -/
def incCounter (s : Interpreter IndexIter RelIter) : Int × Interpreter IndexIter RelIter :=
  (s.counter, { s with counter := wrapInt (s.counter + 1) })

/-- `void incIterationNumber() { iteration++; }`. -/
def incIterationNumber (s : Interpreter IndexIter RelIter) : Interpreter IndexIter RelIter :=
  { s with iteration := wrapSize (s.iteration + 1) }

/-- `size_t getIterationNumber() const`. -/
def getIterationNumber (s : Interpreter IndexIter RelIter) : Nat := s.iteration

/-- `void resetIterationNumber() { iteration = 0; }`. -/
def resetIterationNumber (s : Interpreter IndexIter RelIter) : Interpreter IndexIter RelIter :=
  { s with iteration := 0 }

/-- `getRelation(const std::string&)`: `find`, the assertion `pos != environment.end()`,
then the relation `*pos->second`, given by its address. -/
def getRelation (s : Interpreter IndexIter RelIter) (name : String) : Except Fault RelationPtr :=
  match StdMap.find s.environment name with
  | none => Except.error Fault.assertFailed
  | some rel => Except.ok rel

/-- `getRelation(const RamRelation&)`. -/
def getRelationRam (s : Interpreter IndexIter RelIter) (id : RamRelation) :
    Except Fault RelationPtr :=
  getRelation s id.getName

/-- `dropRelation(const std::string&)`. -/
def dropRelation (s : Interpreter IndexIter RelIter) (relName : String) :
    Except Fault (Interpreter IndexIter RelIter) :=
  match getRelation s relName with
  | Except.error e => Except.error e
  | Except.ok rel =>
    Except.ok { s with environment := StdMap.erase s.environment relName,
                       deleted := rel :: s.deleted }

/-- `dropRelation(const RamRelation&)`. -/
def dropRelationRam (s : Interpreter IndexIter RelIter) (id : RamRelation) :
    Except Fault (Interpreter IndexIter RelIter) :=
  match getRelationRam s id with
  | Except.error e => Except.error e
  | Except.ok rel =>
    Except.ok { s with environment := StdMap.erase s.environment id.getName,
                       deleted := rel :: s.deleted }

/-- `swapRelation(const std::string&, const std::string&)`. -/
def swapRelation (s : Interpreter IndexIter RelIter) (ramRel1 ramRel2 : String) :
    Except Fault (Interpreter IndexIter RelIter) :=
  match getRelation s ramRel1 with
  | Except.error e => Except.error e
  | Except.ok rel1 =>
    match getRelation s ramRel2 with
    | Except.error e => Except.error e
    | Except.ok rel2 =>
      let env1 := StdMap.assign s.environment ramRel1 rel2
      Except.ok { s with environment := StdMap.assign env1 ramRel2 rel1 }

/-- `swapRelation(const RamRelation&, const RamRelation&)`. -/
def swapRelationRam (s : Interpreter IndexIter RelIter) (ramRel1 ramRel2 : RamRelation) :
    Except Fault (Interpreter IndexIter RelIter) :=
  match getRelationRam s ramRel1 with
  | Except.error e => Except.error e
  | Except.ok rel1 =>
    match getRelationRam s ramRel2 with
    | Except.error e => Except.error e
    | Except.ok rel2 =>
      let env1 := StdMap.assign s.environment ramRel1.getName rel2
      Except.ok { s with environment := StdMap.assign env1 ramRel2.getName rel1 }

end Interpreter

/-- `std::vector::resize(n)`, for a call that returns: the first `n` elements are kept,
and the vector is filled up to `n` elements with value-initialised ones. A call with `n`
above `max_size()` throws `std::length_error` instead and leaves the vector as it was;
that path is not in this definition. -/
def resize {α : Type} [Inhabited α] (v : List α) (n : Nat) : List α :=
  v.take n ++ List.replicate (n - v.length) default

namespace Interpreter

variable {IndexIter RelIter : Type} [Inhabited IndexIter] [Inhabited RelIter]

/-- `lookUpIndexScanIterator(size_t idx)`: the state left by the resize step, and the
referent of the reference `indexScanIteratorPool[idx]` returned, `none` when `idx` is not
an index of the vector (the access is then undefined). -/
def lookUpIndexScanIterator (s : Interpreter IndexIter RelIter) (idx : Nat) :
    Interpreter IndexIter RelIter × Option (IndexIter × IndexIter) :=
  let s1 := if idx ≥ s.indexScanIteratorPool.length then
      { s with indexScanIteratorPool :=
                 resize s.indexScanIteratorPool (wrapSize (wrapSize (idx + 1) * 2)) }
    else s
  (s1, s1.indexScanIteratorPool[idx]?)

/-- `lookUpIndexChoiceIterator(size_t idx)`, as `lookUpIndexScanIterator`. -/
def lookUpIndexChoiceIterator (s : Interpreter IndexIter RelIter) (idx : Nat) :
    Interpreter IndexIter RelIter × Option (IndexIter × IndexIter) :=
  let s1 := if idx ≥ s.indexChoiceIteratorPool.length then
      { s with indexChoiceIteratorPool :=
                 resize s.indexChoiceIteratorPool (wrapSize (wrapSize (idx + 1) * 2)) }
    else s
  (s1, s1.indexChoiceIteratorPool[idx]?)

/-- `lookUpScanIterator(size_t idx)`, as `lookUpIndexScanIterator`. -/
def lookUpScanIterator (s : Interpreter IndexIter RelIter) (idx : Nat) :
    Interpreter IndexIter RelIter × Option (RelIter × RelIter) :=
  let s1 := if idx ≥ s.scanIteratorPool.length then
      { s with scanIteratorPool :=
                 resize s.scanIteratorPool (wrapSize (wrapSize (idx + 1) * 2)) }
    else s
  (s1, s1.scanIteratorPool[idx]?)

/-- `lookUpChoiceIterator(size_t idx)`, as `lookUpIndexScanIterator`. -/
def lookUpChoiceIterator (s : Interpreter IndexIter RelIter) (idx : Nat) :
    Interpreter IndexIter RelIter × Option (RelIter × RelIter) :=
  let s1 := if idx ≥ s.choiceIteratorPool.length then
      { s with choiceIteratorPool :=
                 resize s.choiceIteratorPool (wrapSize (wrapSize (idx + 1) * 2)) }
    else s
  (s1, s1.choiceIteratorPool[idx]?)

/-- The values returned by `n` calls of `incCounter` in sequence, first call first, and
the state left by the last one. -/
def incCounterTimes : Nat → Interpreter IndexIter RelIter →
    List Int × Interpreter IndexIter RelIter
  | 0, s => ([], s)
  | n + 1, s =>
    let r := incCounter s
    let rest := incCounterTimes n r.2
    (r.1 :: rest.1, rest.2)

end Interpreter

/-! ## `SumTypeBranchesAnalysis` -/

/-- Address of a `Type` object; `nullptr` is `0`. -/
abbrev TypePtr := Nat

/-- The null pointer. -/
def nullptr : Nat := 0

/-- The data member of `SumTypeBranchesAnalysis`. -/
structure SumTypeBranchesAnalysis where
  branchToType : StdMap String TypePtr
  deriving DecidableEq, Repr

/-- `SumTypeBranchesAnalysis::getType`: the pointer returned, or the exception of `at`. -/
def SumTypeBranchesAnalysis.getType (a : SumTypeBranchesAnalysis) (branch : String) :
    Except Fault TypePtr :=
  if contains a.branchToType branch then
    StdMap.at_ a.branchToType branch
  else
    Except.ok nullptr

/-! ## `Interpreter`: the functor library and the destructor -/

/-- The part of the process outside the `Interpreter` object that `loadDLL` acts on: how
often `dlopen` has been called, and the lines written to `std::cerr`. -/
structure Process where
  dlopenCalls : Nat
  stderr : List String
  deriving DecidableEq, Repr

/-- A process in which `dlopen` has not been called and nothing has been written. -/
def Process.start : Process := { dlopenCalls := 0, stderr := [] }

namespace Interpreter

variable {IndexIter RelIter : Type}

/-- `void* loadDLL()`. The parameter `dlopen` stands for the library function: `dlopen k`
is the handle that the call of `dlopen(SOUFFLE_DLL, RTLD_LAZY)` made after `k` earlier
ones returns, `nullptr` when it fails. The result is the process left, and either the
handle returned with the interpreter left, or `exit(1)`. -/
def loadDLL (dlopen : Nat → Nat) (p : Process) (s : Interpreter IndexIter RelIter) :
    Process × Except Fault (Nat × Interpreter IndexIter RelIter) :=
  if s.dll = nullptr then
    let s1 := { s with dll := dlopen p.dlopenCalls }
    let p1 := { p with dlopenCalls := p.dlopenCalls + 1 }
    if s1.dll = nullptr then
      ({ p1 with stderr := p1.stderr ++ ["Cannot find Souffle's DLL"] },
        Except.error (Fault.exited 1))
    else
      (p1, Except.ok (s1.dll, s1))
  else
    (p, Except.ok (s.dll, s))

/-- The handles returned by `n` calls of `loadDLL` in sequence, first call first, with the
process and the interpreter left; a call that exits ends the sequence. -/
def loadDLLTimes (dlopen : Nat → Nat) : Nat → Process → Interpreter IndexIter RelIter →
    Process × Except Fault (List Nat × Interpreter IndexIter RelIter)
  | 0, p, s => (p, Except.ok ([], s))
  | n + 1, p, s =>
    match loadDLL dlopen p s with
    | (p1, Except.error e) => (p1, Except.error e)
    | (p1, Except.ok (h, s1)) =>
      match loadDLLTimes dlopen n p1 s1 with
      | (p2, Except.error e) => (p2, Except.error e)
      | (p2, Except.ok (hs, s2)) => (p2, Except.ok (h :: hs, s2))

/-- `~Interpreter()`: the objects handed to `delete` by the loop over `environment`, in
the order of the loop; `delete` of a null pointer does nothing. -/
def destructor (s : Interpreter IndexIter RelIter) : List RelationPtr :=
  (s.environment.map Prod.snd).filter (fun rel => decide (rel ≠ nullptr))

/-- No two distinct names of the environment are bound to the same relation object. -/
def NoSharing (env : relation_map) : Prop :=
  ∀ k1 k2 rel, StdMap.find env k1 = some rel → StdMap.find env k2 = some rel → k1 = k2

end Interpreter

end souffle

/-! # Theorems -/

namespace souffle

/-! ## `std::map` lookup, assignment and removal -/

namespace StdMap

variable {κ ν : Type} [DecidableEq κ]

theorem find_eq_none_iff (m : StdMap κ ν) (k : κ) : find m k = none ↔ k ∉ keys m := by
  induction m with
  | nil => simp [find, keys]
  | cons e t ih =>
    obtain ⟨k1, v1⟩ := e
    by_cases h : k1 = k
    · simp [find, keys, h]
    · have h2 : ¬ k = k1 := fun h3 => h h3.symm
      simpa [find, keys, h, h2] using ih

theorem mem_of_find_eq_some (m : StdMap κ ν) (k : κ) (v : ν) (h : find m k = some v) :
    (k, v) ∈ m := by
  induction m with
  | nil => simp [find] at h
  | cons e t ih =>
    obtain ⟨k1, v1⟩ := e
    by_cases hk : k1 = k
    · simp [find, hk] at h
      simp [hk, h]
    · simp [find, hk] at h
      exact List.mem_cons_of_mem _ (ih h)

theorem find_eq_some_of_mem (m : StdMap κ ν) (hwf : WF m) (k : κ) (v : ν) (h : (k, v) ∈ m) :
    find m k = some v := by
  induction m with
  | nil => simp at h
  | cons e t ih =>
    obtain ⟨k1, v1⟩ := e
    have hnd : k1 ∉ keys t ∧ WF t := by
      simpa [WF, keys] using hwf
    by_cases hk : k1 = k
    · rcases List.mem_cons.mp h with h1 | h1
      · have hv : v = v1 := (Prod.mk.inj h1).2
        simp [find, hk, hv]
      · exfalso
        apply hnd.1
        rw [hk]
        exact List.mem_map_of_mem Prod.fst h1
    · rcases List.mem_cons.mp h with h1 | h1
      · exact absurd (Prod.mk.inj h1).1.symm hk
      · simpa [find, hk] using ih hnd.2 h1

theorem find_assign_self (m : StdMap κ ν) (k : κ) (v : ν) : find (assign m k v) k = some v := by
  induction m with
  | nil => simp [assign, find]
  | cons e t ih =>
    obtain ⟨k1, v1⟩ := e
    by_cases hk : k1 = k
    · simp [assign, find, hk]
    · simpa [assign, find, hk] using ih

theorem find_assign_ne (m : StdMap κ ν) (k k2 : κ) (v : ν) (hne : k2 ≠ k) :
    find (assign m k v) k2 = find m k2 := by
  have h : ¬ k = k2 := fun h => hne h.symm
  induction m with
  | nil => simp [assign, find, h]
  | cons e t ih =>
    obtain ⟨k1, v1⟩ := e
    by_cases hk : k1 = k
    · simp [assign, find, hk, h]
    · by_cases hk2 : k1 = k2
      · subst hk2
        simp [assign, find, hk]
      · simpa [assign, find, hk, hk2] using ih

theorem not_mem_keys_erase (m : StdMap κ ν) (k : κ) : k ∉ keys (erase m k) := by
  induction m with
  | nil => simp [erase, keys]
  | cons e t ih =>
    obtain ⟨k1, v1⟩ := e
    by_cases hk : k1 = k
    · simpa [erase, hk] using ih
    · have h : ¬ k = k1 := fun h => hk h.symm
      have ih2 : k ∉ List.map Prod.fst (erase t k) := ih
      simp [erase, hk, keys, h, ih2]

theorem find_erase_self (m : StdMap κ ν) (k : κ) : find (erase m k) k = none := by
  rw [find_eq_none_iff]
  exact not_mem_keys_erase m k

theorem find_erase_ne (m : StdMap κ ν) (k k2 : κ) (hne : k2 ≠ k) :
    find (erase m k) k2 = find m k2 := by
  have h : ¬ k = k2 := fun h => hne h.symm
  induction m with
  | nil => simp [erase, find]
  | cons e t ih =>
    obtain ⟨k1, v1⟩ := e
    by_cases hk : k1 = k
    · simpa [erase, find, hk, h] using ih
    · by_cases hk2 : k1 = k2
      · subst hk2
        simp [erase, find, hk]
      · simpa [erase, find, hk, hk2] using ih

theorem mem_keys_of_find_eq_some (m : StdMap κ ν) (k : κ) (v : ν) (h : find m k = some v) :
    k ∈ keys m := by
  by_contra hk
  rw [(find_eq_none_iff m k).mpr hk] at h
  exact Option.noConfusion h

theorem keys_assign_of_mem (m : StdMap κ ν) (k : κ) (v : ν) (h : k ∈ keys m) :
    keys (assign m k v) = keys m := by
  induction m with
  | nil => simp [keys] at h
  | cons e t ih =>
    obtain ⟨k1, v1⟩ := e
    by_cases hk : k1 = k
    · simp [assign, keys, hk]
    · have ht : k ∈ keys t := by
        have h2 : k = k1 ∨ k ∈ keys t := by simpa [keys] using h
        rcases h2 with h2 | h2
        · exact absurd h2.symm hk
        · exact h2
      have ih2 : List.map Prod.fst (assign t k v) = List.map Prod.fst t := ih ht
      simp [assign, keys, hk, ih2]

theorem assign_assign (m : StdMap κ ν) (k : κ) (v w : ν) :
    assign (assign m k v) k w = assign m k w := by
  induction m with
  | nil => simp [assign]
  | cons e t ih =>
    obtain ⟨k1, v1⟩ := e
    by_cases hk : k1 = k
    · simp [assign, hk]
    · simp [assign, hk, ih]

theorem assign_of_find (m : StdMap κ ν) (k : κ) (v : ν) (h : find m k = some v) :
    assign m k v = m := by
  induction m with
  | nil => simp [find] at h
  | cons e t ih =>
    obtain ⟨k1, v1⟩ := e
    by_cases hk : k1 = k
    · simp [find, hk] at h
      simp [assign, hk, h]
    · simp [find, hk] at h
      simp [assign, hk, ih h]

theorem assign_comm (m : StdMap κ ν) (a b : κ) (va vb : ν) (hab : a ≠ b)
    (ha : a ∈ keys m) (hb : b ∈ keys m) :
    assign (assign m a va) b vb = assign (assign m b vb) a va := by
  induction m with
  | nil => simp [keys] at ha
  | cons e t ih =>
    obtain ⟨k1, v1⟩ := e
    by_cases h1 : k1 = a
    · have h2 : ¬ k1 = b := fun h => hab (h1.symm.trans h)
      simp [assign, h1, h2, hab]
    · by_cases h2 : k1 = b
      · have h3 : ¬ b = a := fun h => hab h.symm
        simp [assign, h2, h3]
      · have hat : a ∈ keys t := by
          have h3 : a = k1 ∨ a ∈ keys t := by simpa [keys] using ha
          rcases h3 with h3 | h3
          · exact absurd h3.symm h1
          · exact h3
        have hbt : b ∈ keys t := by
          have h3 : b = k1 ∨ b ∈ keys t := by simpa [keys] using hb
          rcases h3 with h3 | h3
          · exact absurd h3.symm h2
          · exact h3
        simp [assign, h1, h2, ih hat hbt]

theorem keys_erase_sublist (m : StdMap κ ν) (k : κ) : (keys (erase m k)).Sublist (keys m) := by
  induction m with
  | nil => simp [erase, keys]
  | cons e t ih =>
    obtain ⟨k1, v1⟩ := e
    have ih2 : (List.map Prod.fst (erase t k)).Sublist (List.map Prod.fst t) := ih
    by_cases hk : k1 = k
    · simpa [erase, keys, hk] using ih2.trans (List.sublist_cons_self _ _)
    · simpa [erase, keys, hk] using ih2

theorem WF_assign_of_mem (m : StdMap κ ν) (k : κ) (v : ν) (h : k ∈ keys m) (hwf : WF m) :
    WF (assign m k v) := by
  unfold WF
  rw [keys_assign_of_mem m k v h]
  exact hwf

theorem WF_erase (m : StdMap κ ν) (k : κ) (hwf : WF m) : WF (erase m k) :=
  List.Nodup.sublist (keys_erase_sublist m k) hwf

end StdMap

end souffle

namespace souffle

namespace Interpreter

variable {IndexIter RelIter : Type}

/-! ## The relation environment -/

theorem getRelation_eq_ok_iff (s : Interpreter IndexIter RelIter) (name : String)
    (rel : RelationPtr) :
    getRelation s name = Except.ok rel ↔ StdMap.find s.environment name = some rel := by
  unfold getRelation
  cases h : StdMap.find s.environment name <;> simp

theorem getRelation_eq_error_iff (s : Interpreter IndexIter RelIter) (name : String) :
    getRelation s name = Except.error Fault.assertFailed ↔
      StdMap.find s.environment name = none := by
  unfold getRelation
  cases h : StdMap.find s.environment name <;> simp

theorem getRelation_error_eq (s : Interpreter IndexIter RelIter) (name : String) (e : Fault)
    (h : getRelation s name = Except.error e) : e = Fault.assertFailed := by
  unfold getRelation at h
  cases hf : StdMap.find s.environment name with
  | none => rw [hf] at h; simp at h; exact h.symm
  | some r => rw [hf] at h; simp at h

theorem swapRelationRam_eq (s : Interpreter IndexIter RelIter) (x y : RamRelation) :
    swapRelationRam s x y = swapRelation s x.getName y.getName := rfl

theorem dropRelationRam_eq (s : Interpreter IndexIter RelIter) (id : RamRelation) :
    dropRelationRam s id = dropRelation s id.getName := rfl

theorem swapRelation_ok (s : Interpreter IndexIter RelIter) (a b : String)
    (ra rb : RelationPtr) (ha : getRelation s a = Except.ok ra)
    (hb : getRelation s b = Except.ok rb) :
    swapRelation s a b = Except.ok
      { s with environment := StdMap.assign (StdMap.assign s.environment a rb) b ra } := by
  simp [swapRelation, ha, hb]

theorem swapRelation_lookups (s : Interpreter IndexIter RelIter) (a b : String)
    (ra rb : RelationPtr) (ha : getRelation s a = Except.ok ra)
    (hb : getRelation s b = Except.ok rb) :
    ∃ s1, swapRelation s a b = Except.ok s1 ∧
      getRelation s1 a = Except.ok rb ∧ getRelation s1 b = Except.ok ra := by
  refine ⟨_, swapRelation_ok s a b ra rb ha hb, ?_, ?_⟩
  · rw [getRelation_eq_ok_iff]
    by_cases hab : a = b
    · subst hab
      have hr : ra = rb := by
        rw [ha] at hb
        exact Except.ok.inj hb
      subst hr
      exact StdMap.find_assign_self _ _ _
    · show StdMap.find (StdMap.assign (StdMap.assign s.environment a rb) b ra) a = some rb
      rw [StdMap.find_assign_ne _ _ _ _ hab]
      exact StdMap.find_assign_self _ _ _
  · rw [getRelation_eq_ok_iff]
    exact StdMap.find_assign_self _ _ _

/-- C1. In an environment where the names of `x` and `y` are bound, to `ra` and `rb`,
`swapRelation` succeeds, by name and by `RamRelation` alike, and afterwards `getRelation`
gives for the first name the relation `rb` that the second was bound to, and for the
second name the relation `ra` that the first was bound to. -/
theorem swapRelation_exchanges (s : Interpreter IndexIter RelIter) (x y : RamRelation)
    (ra rb : RelationPtr) (hx : getRelation s x.getName = Except.ok ra)
    (hy : getRelation s y.getName = Except.ok rb) :
    (∃ s1, swapRelation s x.getName y.getName = Except.ok s1 ∧
      getRelation s1 x.getName = Except.ok rb ∧ getRelation s1 y.getName = Except.ok ra) ∧
    (∃ s1, swapRelationRam s x y = Except.ok s1 ∧
      getRelationRam s1 x = Except.ok rb ∧ getRelationRam s1 y = Except.ok ra) :=
  ⟨swapRelation_lookups s x.getName y.getName ra rb hx hy,
   swapRelation_lookups s x.getName y.getName ra rb hx hy⟩

/-- C1, at the environment `edge ↦ 10, path ↦ 20`. -/
theorem swapRelation_exchanges_witness :
    (∃ s1, swapRelation
        ({ init with environment := [("edge", 10), ("path", 20)] } : Interpreter Nat Nat)
        "edge" "path" = Except.ok s1 ∧
      getRelation s1 "edge" = Except.ok 20 ∧ getRelation s1 "path" = Except.ok 10) ∧
    (∃ s1, swapRelationRam
        ({ init with environment := [("edge", 10), ("path", 20)] } : Interpreter Nat Nat)
        ⟨"edge"⟩ ⟨"path"⟩ = Except.ok s1 ∧
      getRelationRam s1 ⟨"edge"⟩ = Except.ok 20 ∧ getRelationRam s1 ⟨"path"⟩ = Except.ok 10) :=
  swapRelation_exchanges
    ({ init with environment := [("edge", 10), ("path", 20)] } : Interpreter Nat Nat)
    ⟨"edge"⟩ ⟨"path"⟩ 10 20 (by decide) (by decide)

theorem getRelation_of_mem_keys (s : Interpreter IndexIter RelIter) (name : String)
    (h : name ∈ StdMap.keys s.environment) :
    ∃ rel, getRelation s name = Except.ok rel ∧ (name, rel) ∈ s.environment := by
  cases hf : StdMap.find s.environment name with
  | none => exact absurd h ((StdMap.find_eq_none_iff _ _).mp hf)
  | some rel =>
    exact ⟨rel, (getRelation_eq_ok_iff s name rel).mpr hf, StdMap.mem_of_find_eq_some _ _ _ hf⟩

theorem getRelation_fails_iff (s : Interpreter IndexIter RelIter) (name : String) :
    getRelation s name = Except.error Fault.assertFailed ↔
      name ∉ StdMap.keys s.environment := by
  rw [getRelation_eq_error_iff, StdMap.find_eq_none_iff]

theorem dropRelation_fails_iff (s : Interpreter IndexIter RelIter) (name : String) :
    dropRelation s name = Except.error Fault.assertFailed ↔
      name ∉ StdMap.keys s.environment := by
  rw [← getRelation_fails_iff]
  unfold dropRelation
  cases h : getRelation s name with
  | error e => simp
  | ok rel => simp

theorem swapRelation_fails_iff (s : Interpreter IndexIter RelIter) (a b : String) :
    swapRelation s a b = Except.error Fault.assertFailed ↔
      (a ∉ StdMap.keys s.environment ∨ b ∉ StdMap.keys s.environment) := by
  rw [← getRelation_fails_iff, ← getRelation_fails_iff]
  unfold swapRelation
  cases ha : getRelation s a with
  | error e =>
    have he := getRelation_error_eq s a e ha
    simp [he]
  | ok ra =>
    cases hb : getRelation s b with
    | error e => simp
    | ok rb => simp

theorem dropRelation_ok (s : Interpreter IndexIter RelIter) (n : String) (rel : RelationPtr)
    (h : getRelation s n = Except.ok rel) :
    dropRelation s n = Except.ok
      { s with environment := StdMap.erase s.environment n, deleted := rel :: s.deleted } := by
  simp [dropRelation, h]

/-- C8. `getRelation` ends in its violated assertion exactly when the name is not a key
of the environment; for a key it returns a relation that the environment holds under
that name, which in a well-formed map is the one relation held under it. `dropRelation`
ends in the same assertion exactly when its name is not a key, `swapRelation` exactly
when one of its two names is not a key, and both return otherwise; the overloads taking
a `RamRelation` are the same calls on the name of the relation. -/
theorem unknown_relation_fatal (s : Interpreter IndexIter RelIter) (name a b : String)
    (x y : RamRelation) :
    (getRelation s name = Except.error Fault.assertFailed ↔
      name ∉ StdMap.keys s.environment) ∧
    (name ∈ StdMap.keys s.environment →
      ∃ rel, getRelation s name = Except.ok rel ∧ (name, rel) ∈ s.environment) ∧
    (StdMap.WF s.environment → ∀ rel, (name, rel) ∈ s.environment →
      getRelation s name = Except.ok rel) ∧
    (dropRelation s name = Except.error Fault.assertFailed ↔
      name ∉ StdMap.keys s.environment) ∧
    (name ∈ StdMap.keys s.environment → ∃ s1, dropRelation s name = Except.ok s1) ∧
    (swapRelation s a b = Except.error Fault.assertFailed ↔
      (a ∉ StdMap.keys s.environment ∨ b ∉ StdMap.keys s.environment)) ∧
    (a ∈ StdMap.keys s.environment → b ∈ StdMap.keys s.environment →
      ∃ s1, swapRelation s a b = Except.ok s1) ∧
    getRelationRam s x = getRelation s x.getName ∧
    dropRelationRam s x = dropRelation s x.getName ∧
    swapRelationRam s x y = swapRelation s x.getName y.getName := by
  refine ⟨getRelation_fails_iff s name, getRelation_of_mem_keys s name, ?_,
    dropRelation_fails_iff s name, ?_, swapRelation_fails_iff s a b, ?_, rfl, rfl, rfl⟩
  · intro hwf rel hmem
    rw [getRelation_eq_ok_iff]
    exact StdMap.find_eq_some_of_mem _ hwf _ _ hmem
  · intro h
    obtain ⟨rel, hrel, _⟩ := getRelation_of_mem_keys s name h
    exact ⟨_, dropRelation_ok s name rel hrel⟩
  · intro ha hb
    obtain ⟨ra, hra, _⟩ := getRelation_of_mem_keys s a ha
    obtain ⟨rb, hrb, _⟩ := getRelation_of_mem_keys s b hb
    exact ⟨_, swapRelation_ok s a b ra rb hra hrb⟩

/-- C8, at the environment `edge ↦ 10, path ↦ 20`: `edge` is found, and the unknown name
`delta` makes each of the three calls fail. -/
theorem unknown_relation_fatal_witness :
    getRelation ({ init with environment := [("edge", 10), ("path", 20)] } :
      Interpreter Nat Nat) "edge" = Except.ok 10 ∧
    getRelation ({ init with environment := [("edge", 10), ("path", 20)] } :
      Interpreter Nat Nat) "delta" = Except.error Fault.assertFailed ∧
    dropRelation ({ init with environment := [("edge", 10), ("path", 20)] } :
      Interpreter Nat Nat) "delta" = Except.error Fault.assertFailed ∧
    swapRelation ({ init with environment := [("edge", 10), ("path", 20)] } :
      Interpreter Nat Nat) "edge" "delta" = Except.error Fault.assertFailed :=
  have h := unknown_relation_fatal
    ({ init with environment := [("edge", 10), ("path", 20)] } : Interpreter Nat Nat)
    "edge" "edge" "delta" ⟨"edge"⟩ ⟨"path"⟩
  have h2 := unknown_relation_fatal
    ({ init with environment := [("edge", 10), ("path", 20)] } : Interpreter Nat Nat)
    "delta" "edge" "delta" ⟨"edge"⟩ ⟨"path"⟩
  ⟨h.2.2.1 (by decide) 10 (by decide), h2.1.mpr (by decide), h2.2.2.2.1.mpr (by decide),
   h.2.2.2.2.2.1.mpr (Or.inr (by decide))⟩

theorem dropRelation_lookups (s : Interpreter IndexIter RelIter) (n : String)
    (rel : RelationPtr) (h : getRelation s n = Except.ok rel) :
    ∃ s1, dropRelation s n = Except.ok s1 ∧
      n ∉ StdMap.keys s1.environment ∧
      getRelation s1 n = Except.error Fault.assertFailed ∧
      ∀ m, m ≠ n → getRelation s1 m = getRelation s m := by
  refine ⟨_, dropRelation_ok s n rel h, StdMap.not_mem_keys_erase _ _, ?_, ?_⟩
  · rw [getRelation_fails_iff]
    exact StdMap.not_mem_keys_erase _ _
  · intro m hm
    unfold getRelation
    show (match StdMap.find (StdMap.erase s.environment n) m with
      | none => Except.error Fault.assertFailed
      | some r => Except.ok r) = _
    rw [StdMap.find_erase_ne _ _ _ hm]

/-- C9. In an environment where the name of `id` is bound, `dropRelation` succeeds, by
name and by `RamRelation` alike; afterwards the name is no key of the environment, so
that `getRelation` of it fails, and `getRelation` of every other name gives what it gave
before the call. -/
theorem dropRelation_removes (s : Interpreter IndexIter RelIter) (id : RamRelation)
    (rel : RelationPtr) (h : getRelation s id.getName = Except.ok rel) :
    (∃ s1, dropRelation s id.getName = Except.ok s1 ∧
      id.getName ∉ StdMap.keys s1.environment ∧
      getRelation s1 id.getName = Except.error Fault.assertFailed ∧
      ∀ m, m ≠ id.getName → getRelation s1 m = getRelation s m) ∧
    (∃ s1, dropRelationRam s id = Except.ok s1 ∧
      id.getName ∉ StdMap.keys s1.environment ∧
      getRelationRam s1 id = Except.error Fault.assertFailed ∧
      ∀ m : RamRelation, m.getName ≠ id.getName → getRelationRam s1 m = getRelationRam s m) :=
  ⟨dropRelation_lookups s id.getName rel h,
   (dropRelation_lookups s id.getName rel h).imp
     (fun _ h1 => ⟨h1.1, h1.2.1, h1.2.2.1, fun m hm => h1.2.2.2 m.getName hm⟩)⟩

/-- C9, at the environment `edge ↦ 10, path ↦ 20` with `edge` dropped. -/
theorem dropRelation_removes_witness :
    (∃ s1, dropRelation ({ init with environment := [("edge", 10), ("path", 20)] } :
        Interpreter Nat Nat) "edge" = Except.ok s1 ∧
      "edge" ∉ StdMap.keys s1.environment ∧
      getRelation s1 "edge" = Except.error Fault.assertFailed ∧
      ∀ m, m ≠ "edge" → getRelation s1 m =
        getRelation ({ init with environment := [("edge", 10), ("path", 20)] } :
          Interpreter Nat Nat) m) :=
  (dropRelation_removes
    ({ init with environment := [("edge", 10), ("path", 20)] } : Interpreter Nat Nat)
    ⟨"edge"⟩ 10 (by decide)).1

/-! ## The counters -/

theorem wrapInt_of_inRange (z : Int) (hlo : INT_MIN ≤ z) (hhi : z ≤ INT_MAX) :
    wrapInt z = z := by
  unfold INT_MIN at hlo
  unfold INT_MAX at hhi
  unfold wrapInt
  omega

theorem incCounterTimes_results (n : Nat) (s : Interpreter IndexIter RelIter)
    (hlo : INT_MIN ≤ s.counter) (hhi : s.counter + n ≤ INT_MAX + 1) :
    (incCounterTimes n s).1 = (List.range n).map (fun i : Nat => s.counter + i) := by
  induction n generalizing s with
  | zero => simp [incCounterTimes]
  | succ n ih =>
    rw [List.range_succ_eq_map]
    cases n with
    | zero => simp [incCounterTimes, incCounter]
    | succ m =>
      have hc : (incCounter s).2.counter = s.counter + 1 := by
        show wrapInt (s.counter + 1) = s.counter + 1
        apply wrapInt_of_inRange
        · omega
        · push_cast at hhi
          omega
      have h1 := ih (incCounter s).2 (by rw [hc]; omega) (by rw [hc]; push_cast at hhi ⊢; omega)
      show s.counter :: (incCounterTimes (m + 1) (incCounter s).2).1 = _
      rw [h1, hc]
      simp only [List.map_cons, List.map_map, Nat.cast_zero, add_zero, List.cons.injEq, true_and]
      apply List.map_congr_left
      intro i _
      simp only [Function.comp, Nat.succ_eq_add_one]
      push_cast
      ring

/-- C5 as stated fails at the largest `int`: the call returns the value held before,
`2147483647`, but the counter left is `-2147483648` and not one larger. -/
theorem incCounter_not_one_larger_at_INT_MAX :
    (incCounter ({ init with counter := 2147483647 } : Interpreter Nat Nat)).1 = 2147483647 ∧
    (incCounter ({ init with counter := 2147483647 } : Interpreter Nat Nat)).2.counter
      = -2147483648 ∧
    (incCounter ({ init with counter := 2147483647 } : Interpreter Nat Nat)).2.counter
      ≠ 2147483647 + 1 := by
  decide

/-- C5, amended. `incCounter` returns the value the counter held before the call, and
for a counter below `INT_MAX` leaves it exactly one larger; on a freshly constructed
interpreter the `k`-th call, for `1 ≤ k ≤ 2 ^ 31`, returns `k - 1`, and three calls in
sequence return `0, 1, 2`. -/
theorem incCounter_returns_then_increments (s : Interpreter IndexIter RelIter) (k : Nat)
    (hlo : INT_MIN ≤ s.counter) (hhi : s.counter < INT_MAX) (hk1 : 1 ≤ k) (hk : k ≤ 2 ^ 31) :
    (incCounter s).1 = s.counter ∧
    (incCounter s).2.counter = s.counter + 1 ∧
    (incCounterTimes k (init : Interpreter IndexIter RelIter)).1[k - 1]? = some ((k : Int) - 1) ∧
    (incCounterTimes 3 (init : Interpreter IndexIter RelIter)).1 = [0, 1, 2] := by
  refine ⟨rfl, ?_, ?_, ?_⟩
  · show wrapInt (s.counter + 1) = s.counter + 1
    exact wrapInt_of_inRange _ (by omega) (by omega)
  · have h0 : (init : Interpreter IndexIter RelIter).counter = 0 := rfl
    rw [incCounterTimes_results k init (by rw [h0]; decide)
      (by rw [h0]; unfold INT_MAX; push_cast; omega)]
    rw [List.getElem?_map, List.getElem?_range (by omega)]
    simp only [Option.map_some', h0, zero_add]
    congr 1
    omega
  · simp [incCounterTimes, incCounter, init, wrapInt]

/-- C5 amended, at a counter of `41` and the fifth call on a fresh interpreter. -/
theorem incCounter_returns_then_increments_witness :
    (incCounter ({ init with counter := 41 } : Interpreter Nat Nat)).1 = 41 ∧
    (incCounter ({ init with counter := 41 } : Interpreter Nat Nat)).2.counter = 41 + 1 ∧
    (incCounterTimes 5 (init : Interpreter Nat Nat)).1[5 - 1]? = some (((5 : Nat) : Int) - 1) ∧
    (incCounterTimes 3 (init : Interpreter Nat Nat)).1 = [0, 1, 2] :=
  incCounter_returns_then_increments
    ({ init with counter := 41 } : Interpreter Nat Nat) 5 (by decide) (by decide)
    (by decide) (by decide)

/-- C6 as stated fails at the largest `int`: the call made there returns `2147483647`,
the call after it returns `-2147483648`, which is not greater. -/
theorem incCounter_not_increasing_at_INT_MAX :
    (incCounter ({ init with counter := 2147483647 } : Interpreter Nat Nat)).1 = 2147483647 ∧
    (incCounter (incCounter
      ({ init with counter := 2147483647 } : Interpreter Nat Nat)).2).1 = -2147483648 ∧
    ¬ ((incCounter ({ init with counter := 2147483647 } : Interpreter Nat Nat)).1 <
      (incCounter (incCounter
        ({ init with counter := 2147483647 } : Interpreter Nat Nat)).2).1) := by
  decide

/-- C6, amended. With the counter an `int` below `INT_MAX`, a call of `incCounter`
returns exactly one more than the call before it, so a strictly greater value; with the
counter at `INT_MAX` the call after returns `INT_MIN`. -/
theorem incCounter_increasing_below_INT_MAX (s : Interpreter IndexIter RelIter) :
    (INT_MIN ≤ s.counter → s.counter < INT_MAX →
      (incCounter (incCounter s).2).1 = (incCounter s).1 + 1 ∧
      (incCounter s).1 < (incCounter (incCounter s).2).1) ∧
    (s.counter = INT_MAX → (incCounter (incCounter s).2).1 = INT_MIN) := by
  constructor
  · intro hlo hhi
    have h : (incCounter (incCounter s).2).1 = s.counter + 1 := by
      show wrapInt (s.counter + 1) = s.counter + 1
      exact wrapInt_of_inRange _ (by omega) (by omega)
    rw [h]
    exact ⟨rfl, by show s.counter < s.counter + 1; omega⟩
  · intro h
    show wrapInt (s.counter + 1) = INT_MIN
    rw [h]
    decide

/-- C6 amended, at a counter of `41` and at the largest `int`. -/
theorem incCounter_increasing_below_INT_MAX_witness :
    ((incCounter (incCounter ({ init with counter := 41 } : Interpreter Nat Nat)).2).1
        = (incCounter ({ init with counter := 41 } : Interpreter Nat Nat)).1 + 1 ∧
      (incCounter ({ init with counter := 41 } : Interpreter Nat Nat)).1 <
        (incCounter (incCounter ({ init with counter := 41 } : Interpreter Nat Nat)).2).1) ∧
    (incCounter (incCounter
      ({ init with counter := INT_MAX } : Interpreter Nat Nat)).2).1 = INT_MIN :=
  ⟨(incCounter_increasing_below_INT_MAX
      ({ init with counter := 41 } : Interpreter Nat Nat)).1 (by decide) (by decide),
   (incCounter_increasing_below_INT_MAX
      ({ init with counter := INT_MAX } : Interpreter Nat Nat)).2 rfl⟩

theorem iteration_after_passes (s : Interpreter IndexIter RelIter) (n : Nat) :
    getIterationNumber (Nat.iterate incIterationNumber n (resetIterationNumber s))
      = n % SIZE_MOD := by
  induction n with
  | zero => rfl
  | succ n ih =>
    rw [Function.iterate_succ_apply']
    show wrapSize
      (getIterationNumber (Nat.iterate incIterationNumber n (resetIterationNumber s)) + 1) = _
    rw [ih]
    unfold wrapSize
    exact Nat.mod_add_mod n SIZE_MOD 1

/-- C7 as stated fails at `n = 2 ^ 64`: after the reset and `2 ^ 64` passes the
iteration number, a `size_t`, is `0` again. -/
theorem getIterationNumber_wraps_at_SIZE_MOD :
    getIterationNumber (Nat.iterate incIterationNumber (2 ^ 64)
      (resetIterationNumber (init : Interpreter Nat Nat))) = 0 ∧
    getIterationNumber (Nat.iterate incIterationNumber (2 ^ 64)
      (resetIterationNumber (init : Interpreter Nat Nat))) ≠ 2 ^ 64 := by
  have h := iteration_after_passes (init : Interpreter Nat Nat) (2 ^ 64)
  have h0 : 2 ^ 64 % SIZE_MOD = 0 := Nat.mod_self _
  rw [h0] at h
  exact ⟨h, by rw [h]; exact (Nat.two_pow_pos 64).ne⟩

/-- C7, amended. Whatever the iteration number before, `resetIterationNumber` followed
by `n` calls of `incIterationNumber` makes `getIterationNumber` return `n` modulo
`2 ^ 64`, which is `n` itself for every `n` below `2 ^ 64`. -/
theorem getIterationNumber_after_reset (s : Interpreter IndexIter RelIter) (n : Nat) :
    getIterationNumber (Nat.iterate incIterationNumber n (resetIterationNumber s))
      = n % 2 ^ 64 ∧
    (n < 2 ^ 64 →
      getIterationNumber (Nat.iterate incIterationNumber n (resetIterationNumber s)) = n) :=
  ⟨iteration_after_passes s n,
   fun h => (iteration_after_passes s n).trans (Nat.mod_eq_of_lt h)⟩

/-- C7 amended, at three passes after a reset from iteration number `7`. -/
theorem getIterationNumber_after_reset_witness :
    getIterationNumber (Nat.iterate incIterationNumber 3
      (resetIterationNumber ({ init with iteration := 7 } : Interpreter Nat Nat))) = 3 :=
  (getIterationNumber_after_reset ({ init with iteration := 7 } : Interpreter Nat Nat) 3).2
    (by decide)

end Interpreter

/-! ## The iterator pools -/

namespace Interpreter

variable {IndexIter RelIter : Type}

/-- C2 fails on the code. A scan pool of four cursor pairs, the size left by a lookup of
slot `1`, is cut down to two entries by a lookup of slot `2 ^ 63`, for which
`(idx + 1) * 2` wraps to `2`: slots `2` and `3` and the cursor pairs they held are gone,
and the reference returned is out of bounds. -/
theorem lookUpScanIterator_loses_slots_on_overflow :
    ({ init with scanIteratorPool := [(1, 2), (3, 4), (5, 6), (7, 8)] } :
      Interpreter Nat Nat).scanIteratorPool[2]? = some (5, 6) ∧
    (lookUpScanIterator ({ init with scanIteratorPool := [(1, 2), (3, 4), (5, 6), (7, 8)] } :
      Interpreter Nat Nat) (2 ^ 63)).1.scanIteratorPool = [(1, 2), (3, 4)] ∧
    (lookUpScanIterator ({ init with scanIteratorPool := [(1, 2), (3, 4), (5, 6), (7, 8)] } :
      Interpreter Nat Nat) (2 ^ 63)).1.scanIteratorPool[2]? = none ∧
    (lookUpScanIterator ({ init with scanIteratorPool := [(1, 2), (3, 4), (5, 6), (7, 8)] } :
      Interpreter Nat Nat) (2 ^ 63)).2 = none := by
  decide

/-- C3 fails on the code. On a fresh interpreter a lookup of slot `2 ^ 63 - 1`, which is not
below the size `0` of the pool, calls `resize` with `(idx + 1) * 2` wrapped to `0`: each
of the four pools holds `0` entries after the lookup and not at least `2 * (idx + 1)`. -/
theorem lookUp_empty_after_overflow :
    ((lookUpIndexScanIterator (init : Interpreter Nat Nat)
          (2 ^ 63 - 1)).1.indexScanIteratorPool.length = 0 ∧
      ¬ (2 * ((2 ^ 63 - 1) + 1) ≤
        (lookUpIndexScanIterator (init : Interpreter Nat Nat)
          (2 ^ 63 - 1)).1.indexScanIteratorPool.length)) ∧
    ((lookUpIndexChoiceIterator (init : Interpreter Nat Nat)
          (2 ^ 63 - 1)).1.indexChoiceIteratorPool.length = 0 ∧
      ¬ (2 * ((2 ^ 63 - 1) + 1) ≤
        (lookUpIndexChoiceIterator (init : Interpreter Nat Nat)
          (2 ^ 63 - 1)).1.indexChoiceIteratorPool.length)) ∧
    ((lookUpScanIterator (init : Interpreter Nat Nat)
          (2 ^ 63 - 1)).1.scanIteratorPool.length = 0 ∧
      ¬ (2 * ((2 ^ 63 - 1) + 1) ≤
        (lookUpScanIterator (init : Interpreter Nat Nat)
          (2 ^ 63 - 1)).1.scanIteratorPool.length)) ∧
    ((lookUpChoiceIterator (init : Interpreter Nat Nat)
          (2 ^ 63 - 1)).1.choiceIteratorPool.length = 0 ∧
      ¬ (2 * ((2 ^ 63 - 1) + 1) ≤
        (lookUpChoiceIterator (init : Interpreter Nat Nat)
          (2 ^ 63 - 1)).1.choiceIteratorPool.length)) := by
  decide

/-- C4 fails on the code. Each of the four pools, grown to four entries by a lookup of
slot `1` on a fresh interpreter, shrinks to two entries on a lookup of slot `2 ^ 63`,
for which `(idx + 1) * 2` wraps to `2`. -/
theorem pools_shrink_on_overflow :
    ((lookUpIndexScanIterator (init : Interpreter Nat Nat) 1).1.indexScanIteratorPool.length = 4 ∧
      (lookUpIndexScanIterator (lookUpIndexScanIterator (init : Interpreter Nat Nat) 1).1
        (2 ^ 63)).1.indexScanIteratorPool.length = 2) ∧
    ((lookUpIndexChoiceIterator (init : Interpreter Nat Nat) 1).1.indexChoiceIteratorPool.length
        = 4 ∧
      (lookUpIndexChoiceIterator (lookUpIndexChoiceIterator (init : Interpreter Nat Nat) 1).1
        (2 ^ 63)).1.indexChoiceIteratorPool.length = 2) ∧
    ((lookUpScanIterator (init : Interpreter Nat Nat) 1).1.scanIteratorPool.length = 4 ∧
      (lookUpScanIterator (lookUpScanIterator (init : Interpreter Nat Nat) 1).1
        (2 ^ 63)).1.scanIteratorPool.length = 2) ∧
    ((lookUpChoiceIterator (init : Interpreter Nat Nat) 1).1.choiceIteratorPool.length = 4 ∧
      (lookUpChoiceIterator (lookUpChoiceIterator (init : Interpreter Nat Nat) 1).1
        (2 ^ 63)).1.choiceIteratorPool.length = 2) := by
  decide

end Interpreter

/-! ## `SumTypeBranchesAnalysis::getType` -/

namespace SumTypeBranchesAnalysis

theorem getType_eq (a : SumTypeBranchesAnalysis) (branch : String) :
    getType a branch = Except.ok ((StdMap.find a.branchToType branch).getD nullptr) := by
  unfold getType contains StdMap.at_
  cases h : StdMap.find a.branchToType branch <;> simp

/-- C10 as stated fails for a map that holds a null pointer: with `A ↦ nullptr` the
branch `A` is a key, and `getType` returns `nullptr` all the same. -/
theorem getType_nullptr_for_key :
    "A" ∈ StdMap.keys (SumTypeBranchesAnalysis.mk [("A", nullptr)]).branchToType ∧
    getType (SumTypeBranchesAnalysis.mk [("A", nullptr)]) "A" = Except.ok nullptr ∧
    ¬ (getType (SumTypeBranchesAnalysis.mk [("A", nullptr)]) "A" = Except.ok nullptr ↔
      "A" ∉ StdMap.keys (SumTypeBranchesAnalysis.mk [("A", nullptr)]).branchToType) := by
  decide

/-- C10, amended. `getType` never ends in an exception, and `at` is never reached with a
missing key; for a key it returns a pointer the map holds under that key, in a
well-formed map the one pointer held under it; for a name that is no key it returns
`nullptr`; and in a map that holds no null pointer it returns `nullptr` exactly when the
name is no key. -/
theorem getType_total (a : SumTypeBranchesAnalysis) (branch : String) :
    (∀ e, getType a branch ≠ Except.error e) ∧
    (contains a.branchToType branch = true →
      ∃ t, StdMap.at_ a.branchToType branch = Except.ok t) ∧
    (branch ∈ StdMap.keys a.branchToType →
      ∃ t, getType a branch = Except.ok t ∧ (branch, t) ∈ a.branchToType) ∧
    (StdMap.WF a.branchToType → ∀ t, (branch, t) ∈ a.branchToType →
      getType a branch = Except.ok t) ∧
    (branch ∉ StdMap.keys a.branchToType → getType a branch = Except.ok nullptr) ∧
    ((∀ e ∈ a.branchToType, e.2 ≠ nullptr) →
      (getType a branch = Except.ok nullptr ↔ branch ∉ StdMap.keys a.branchToType)) := by
  have hnone : branch ∉ StdMap.keys a.branchToType → getType a branch = Except.ok nullptr := by
    intro h
    rw [getType_eq, (StdMap.find_eq_none_iff _ _).mpr h]
    rfl
  have hkey : branch ∈ StdMap.keys a.branchToType →
      ∃ t, getType a branch = Except.ok t ∧ (branch, t) ∈ a.branchToType := by
    intro h
    cases hf : StdMap.find a.branchToType branch with
    | none => exact absurd h ((StdMap.find_eq_none_iff _ _).mp hf)
    | some t =>
      refine ⟨t, ?_, StdMap.mem_of_find_eq_some _ _ _ hf⟩
      rw [getType_eq, hf]
      rfl
  refine ⟨?_, ?_, hkey, ?_, hnone, ?_⟩
  · intro e
    rw [getType_eq]
    simp
  · intro hc
    unfold contains at hc
    unfold StdMap.at_
    cases hf : StdMap.find a.branchToType branch with
    | none => rw [hf] at hc; simp at hc
    | some t => exact ⟨t, rfl⟩
  · intro hwf t hmem
    rw [getType_eq, StdMap.find_eq_some_of_mem _ hwf _ _ hmem]
    rfl
  · intro hnn
    refine ⟨fun h hk => ?_, hnone⟩
    obtain ⟨t, ht, hmem⟩ := hkey hk
    rw [h] at ht
    exact hnn (branch, t) hmem (Except.ok.inj ht).symm

/-- C10 amended, at the map `Nil ↦ 100, Cons ↦ 200`: `Cons` gives `200`, and the
undeclared `Leaf` gives `nullptr`. -/
theorem getType_total_witness :
    getType (SumTypeBranchesAnalysis.mk [("Nil", 100), ("Cons", 200)]) "Cons"
      = Except.ok 200 ∧
    getType (SumTypeBranchesAnalysis.mk [("Nil", 100), ("Cons", 200)]) "Leaf"
      = Except.ok nullptr ∧
    (getType (SumTypeBranchesAnalysis.mk [("Nil", 100), ("Cons", 200)]) "Cons"
        = Except.ok nullptr ↔
      "Cons" ∉ StdMap.keys (SumTypeBranchesAnalysis.mk [("Nil", 100), ("Cons", 200)]).branchToType) :=
  ⟨(getType_total (SumTypeBranchesAnalysis.mk [("Nil", 100), ("Cons", 200)]) "Cons").2.2.2.1
      (by decide) 200 (by decide),
   (getType_total (SumTypeBranchesAnalysis.mk [("Nil", 100), ("Cons", 200)]) "Leaf").2.2.2.2.1
      (by decide),
   (getType_total (SumTypeBranchesAnalysis.mk [("Nil", 100), ("Cons", 200)]) "Cons").2.2.2.2.2
      (by decide)⟩

end SumTypeBranchesAnalysis

end souffle

namespace souffle

namespace Interpreter

variable {IndexIter RelIter : Type}

/-! ## The functor library -/

theorem loadDLL_cached (dlopen : Nat → Nat) (p : Process) (s : Interpreter IndexIter RelIter)
    (h : s.dll ≠ nullptr) : loadDLL dlopen p s = (p, Except.ok (s.dll, s)) := by
  unfold loadDLL
  rw [if_neg h]

theorem loadDLL_opened (dlopen : Nat → Nat) (p : Process) (s : Interpreter IndexIter RelIter)
    (h : s.dll = nullptr) (hopen : dlopen p.dlopenCalls ≠ nullptr) :
    loadDLL dlopen p s = ({ p with dlopenCalls := p.dlopenCalls + 1 },
      Except.ok (dlopen p.dlopenCalls, { s with dll := dlopen p.dlopenCalls })) := by
  unfold loadDLL
  rw [if_pos h]
  simp only []
  rw [if_neg hopen]

theorem loadDLL_missing (dlopen : Nat → Nat) (p : Process) (s : Interpreter IndexIter RelIter)
    (h : s.dll = nullptr) (hopen : dlopen p.dlopenCalls = nullptr) :
    loadDLL dlopen p s =
      ({ dlopenCalls := p.dlopenCalls + 1, stderr := p.stderr ++ ["Cannot find Souffle's DLL"] },
        Except.error (Fault.exited 1)) := by
  unfold loadDLL
  rw [if_pos h]
  simp only []
  rw [if_pos hopen]

theorem loadDLLTimes_cached (dlopen : Nat → Nat) (n : Nat) (p : Process)
    (s : Interpreter IndexIter RelIter) (h : s.dll ≠ nullptr) :
    loadDLLTimes dlopen n p s = (p, Except.ok (List.replicate n s.dll, s)) := by
  induction n with
  | zero => rfl
  | succ n ih =>
    unfold loadDLLTimes
    rw [loadDLL_cached dlopen p s h]
    simp only []
    rw [ih]
    rfl

/-- C11. On an interpreter that holds no handle yet, as the constructor leaves it, and
with a `dlopen` that succeeds, `n ≥ 1` calls of `loadDLL` in sequence all return, each
the non-null handle that the one call of `dlopen` produced; `dlopen` has been called
exactly once more after the first call and still exactly once more after all `n`, and
the handle is the one cached in `dll`. -/
theorem loadDLL_loads_once (dlopen : Nat → Nat) (p : Process)
    (s : Interpreter IndexIter RelIter) (n : Nat) (hfresh : s.dll = nullptr)
    (hopen : dlopen p.dlopenCalls ≠ nullptr) (hn : 1 ≤ n) :
    loadDLLTimes dlopen n p s =
      ({ p with dlopenCalls := p.dlopenCalls + 1 },
        Except.ok (List.replicate n (dlopen p.dlopenCalls),
          { s with dll := dlopen p.dlopenCalls })) ∧
    (loadDLL dlopen p s).1.dlopenCalls = p.dlopenCalls + 1 ∧
    dlopen p.dlopenCalls ≠ nullptr := by
  refine ⟨?_, ?_, hopen⟩
  · obtain ⟨m, rfl⟩ : ∃ m, n = m + 1 := ⟨n - 1, by omega⟩
    unfold loadDLLTimes
    rw [loadDLL_opened dlopen p s hfresh hopen]
    simp only []
    rw [loadDLLTimes_cached dlopen m _ _ (by exact hopen)]
    rfl
  · rw [loadDLL_opened dlopen p s hfresh hopen]

/-- C11, at three calls on a fresh interpreter, with a `dlopen` that returns `77`. -/
theorem loadDLL_loads_once_witness :
    loadDLLTimes (fun _ => 77) 3 Process.start (init : Interpreter Nat Nat) =
      ({ Process.start with dlopenCalls := Process.start.dlopenCalls + 1 },
        Except.ok (List.replicate 3 77, { (init : Interpreter Nat Nat) with dll := 77 })) ∧
    (loadDLL (fun _ => 77) Process.start (init : Interpreter Nat Nat)).1.dlopenCalls
      = Process.start.dlopenCalls + 1 ∧
    (77 : Nat) ≠ nullptr :=
  loadDLL_loads_once (fun _ => 77) Process.start (init : Interpreter Nat Nat) 3 rfl
    (by decide) (by decide)

/-- C12. `loadDLL` ends the process with `exit(1)`, a nonzero status, exactly when no
handle is cached and `dlopen` returns null, and it has then written its diagnostic to
standard error; in every other case it returns a non-null handle, does not exit and
writes nothing. -/
theorem loadDLL_exits_iff_missing (dlopen : Nat → Nat) (p : Process)
    (s : Interpreter IndexIter RelIter) :
    ((∃ status, status ≠ 0 ∧ (loadDLL dlopen p s).2 = Except.error (Fault.exited status)) ↔
      (s.dll = nullptr ∧ dlopen p.dlopenCalls = nullptr)) ∧
    ((s.dll = nullptr ∧ dlopen p.dlopenCalls = nullptr) →
      (loadDLL dlopen p s).2 = Except.error (Fault.exited 1) ∧
      (loadDLL dlopen p s).1.stderr = p.stderr ++ ["Cannot find Souffle's DLL"]) ∧
    (¬ (s.dll = nullptr ∧ dlopen p.dlopenCalls = nullptr) →
      ∃ handle s1, (loadDLL dlopen p s).2 = Except.ok (handle, s1) ∧ handle ≠ nullptr ∧
        s1.dll = handle ∧ (loadDLL dlopen p s).1.stderr = p.stderr) := by
  have hother : ¬ (s.dll = nullptr ∧ dlopen p.dlopenCalls = nullptr) →
      ∃ handle s1, (loadDLL dlopen p s).2 = Except.ok (handle, s1) ∧ handle ≠ nullptr ∧
        s1.dll = handle ∧ (loadDLL dlopen p s).1.stderr = p.stderr := by
    intro hc
    by_cases h : s.dll = nullptr
    · have hopen : dlopen p.dlopenCalls ≠ nullptr := fun h2 => hc ⟨h, h2⟩
      rw [loadDLL_opened dlopen p s h hopen]
      exact ⟨_, _, rfl, hopen, rfl, rfl⟩
    · rw [loadDLL_cached dlopen p s h]
      exact ⟨_, _, rfl, h, rfl, rfl⟩
  refine ⟨⟨?_, ?_⟩, ?_, hother⟩
  · rintro ⟨status, _, hexit⟩
    by_contra hc
    obtain ⟨handle, s1, hok, _⟩ := hother hc
    rw [hok] at hexit
    exact Except.noConfusion hexit
  · rintro ⟨h, hopen⟩
    rw [loadDLL_missing dlopen p s h hopen]
    exact ⟨1, by decide, rfl⟩
  · rintro ⟨h, hopen⟩
    rw [loadDLL_missing dlopen p s h hopen]
    exact ⟨rfl, rfl⟩

/-- C12, on a fresh interpreter: a `dlopen` that returns null makes `loadDLL` exit with
status `1` after the diagnostic, and a `dlopen` that returns `77` makes it return `77`. -/
theorem loadDLL_exits_iff_missing_witness :
    ((loadDLL (fun _ => 0) Process.start (init : Interpreter Nat Nat)).2
        = Except.error (Fault.exited 1) ∧
      (loadDLL (fun _ => 0) Process.start (init : Interpreter Nat Nat)).1.stderr
        = Process.start.stderr ++ ["Cannot find Souffle's DLL"]) ∧
    (∃ handle s1, (loadDLL (fun _ => 77) Process.start (init : Interpreter Nat Nat)).2
        = Except.ok (handle, s1) ∧ handle ≠ nullptr ∧ s1.dll = handle ∧
      (loadDLL (fun _ => 77) Process.start (init : Interpreter Nat Nat)).1.stderr
        = Process.start.stderr) :=
  ⟨(loadDLL_exits_iff_missing (fun _ => 0) Process.start (init : Interpreter Nat Nat)).2.1
      ⟨rfl, rfl⟩,
   (loadDLL_exits_iff_missing (fun _ => 77) Process.start (init : Interpreter Nat Nat)).2.2
      (by decide)⟩

/-! ## The iterator pools: bounds and separation -/

/-- C14 fails on the code. On a fresh interpreter a lookup of slot `2 ^ 63` in any of the
four pools resizes the pool to `2` entries, because `(idx + 1) * 2` wraps to `2`; `idx`
is then not below the size of the pool, and the reference `pool[idx]` returned is out
of bounds. -/
theorem lookUp_out_of_bounds_on_overflow :
    ((lookUpIndexScanIterator (init : Interpreter Nat Nat) (2 ^ 63)).1.indexScanIteratorPool.length
        = 2 ∧
      ¬ (2 ^ 63 <
        (lookUpIndexScanIterator (init : Interpreter Nat Nat)
          (2 ^ 63)).1.indexScanIteratorPool.length) ∧
      (lookUpIndexScanIterator (init : Interpreter Nat Nat) (2 ^ 63)).2 = none) ∧
    ((lookUpIndexChoiceIterator (init : Interpreter Nat Nat)
          (2 ^ 63)).1.indexChoiceIteratorPool.length = 2 ∧
      ¬ (2 ^ 63 <
        (lookUpIndexChoiceIterator (init : Interpreter Nat Nat)
          (2 ^ 63)).1.indexChoiceIteratorPool.length) ∧
      (lookUpIndexChoiceIterator (init : Interpreter Nat Nat) (2 ^ 63)).2 = none) ∧
    ((lookUpScanIterator (init : Interpreter Nat Nat) (2 ^ 63)).1.scanIteratorPool.length = 2 ∧
      ¬ (2 ^ 63 <
        (lookUpScanIterator (init : Interpreter Nat Nat) (2 ^ 63)).1.scanIteratorPool.length) ∧
      (lookUpScanIterator (init : Interpreter Nat Nat) (2 ^ 63)).2 = none) ∧
    ((lookUpChoiceIterator (init : Interpreter Nat Nat) (2 ^ 63)).1.choiceIteratorPool.length
        = 2 ∧
      ¬ (2 ^ 63 <
        (lookUpChoiceIterator (init : Interpreter Nat Nat) (2 ^ 63)).1.choiceIteratorPool.length) ∧
      (lookUpChoiceIterator (init : Interpreter Nat Nat) (2 ^ 63)).2 = none) := by
  decide

/-- C15. A lookup in one of the four iterator pools, with any slot id, leaves the three
other pools as they are, entry for entry, and leaves the relation environment, the id
counter and the iteration number unchanged. -/
theorem lookUp_touches_own_pool_only [Inhabited IndexIter] [Inhabited RelIter]
    (s : Interpreter IndexIter RelIter) (idx : Nat) :
    ((lookUpIndexScanIterator s idx).1.indexChoiceIteratorPool = s.indexChoiceIteratorPool ∧
      (lookUpIndexScanIterator s idx).1.scanIteratorPool = s.scanIteratorPool ∧
      (lookUpIndexScanIterator s idx).1.choiceIteratorPool = s.choiceIteratorPool ∧
      (lookUpIndexScanIterator s idx).1.environment = s.environment ∧
      (lookUpIndexScanIterator s idx).1.counter = s.counter ∧
      (lookUpIndexScanIterator s idx).1.iteration = s.iteration) ∧
    ((lookUpIndexChoiceIterator s idx).1.indexScanIteratorPool = s.indexScanIteratorPool ∧
      (lookUpIndexChoiceIterator s idx).1.scanIteratorPool = s.scanIteratorPool ∧
      (lookUpIndexChoiceIterator s idx).1.choiceIteratorPool = s.choiceIteratorPool ∧
      (lookUpIndexChoiceIterator s idx).1.environment = s.environment ∧
      (lookUpIndexChoiceIterator s idx).1.counter = s.counter ∧
      (lookUpIndexChoiceIterator s idx).1.iteration = s.iteration) ∧
    ((lookUpScanIterator s idx).1.indexScanIteratorPool = s.indexScanIteratorPool ∧
      (lookUpScanIterator s idx).1.indexChoiceIteratorPool = s.indexChoiceIteratorPool ∧
      (lookUpScanIterator s idx).1.choiceIteratorPool = s.choiceIteratorPool ∧
      (lookUpScanIterator s idx).1.environment = s.environment ∧
      (lookUpScanIterator s idx).1.counter = s.counter ∧
      (lookUpScanIterator s idx).1.iteration = s.iteration) ∧
    ((lookUpChoiceIterator s idx).1.indexScanIteratorPool = s.indexScanIteratorPool ∧
      (lookUpChoiceIterator s idx).1.indexChoiceIteratorPool = s.indexChoiceIteratorPool ∧
      (lookUpChoiceIterator s idx).1.scanIteratorPool = s.scanIteratorPool ∧
      (lookUpChoiceIterator s idx).1.environment = s.environment ∧
      (lookUpChoiceIterator s idx).1.counter = s.counter ∧
      (lookUpChoiceIterator s idx).1.iteration = s.iteration) := by
  refine ⟨?_, ?_, ?_, ?_⟩
  · unfold lookUpIndexScanIterator
    split <;> exact ⟨rfl, rfl, rfl, rfl, rfl, rfl⟩
  · unfold lookUpIndexChoiceIterator
    split <;> exact ⟨rfl, rfl, rfl, rfl, rfl, rfl⟩
  · unfold lookUpScanIterator
    split <;> exact ⟨rfl, rfl, rfl, rfl, rfl, rfl⟩
  · unfold lookUpChoiceIterator
    split <;> exact ⟨rfl, rfl, rfl, rfl, rfl, rfl⟩

/-! ## `swapRelation`: frame and algebra -/

theorem mem_keys_of_getRelation (s : Interpreter IndexIter RelIter) (name : String)
    (rel : RelationPtr) (h : getRelation s name = Except.ok rel) :
    name ∈ StdMap.keys s.environment :=
  StdMap.mem_keys_of_find_eq_some _ _ _ ((getRelation_eq_ok_iff s name rel).mp h)

/-- C17. In an environment where `a` and `b` are bound, `swapRelation(a, b)` succeeds and
leaves the same names bound as before; every name other than `a` and `b` is bound to the
relation it was bound to; the id counter, the iteration number and the four iterator
pools are unchanged. -/
theorem swapRelation_frame (s : Interpreter IndexIter RelIter) (a b : String)
    (ra rb : RelationPtr) (ha : getRelation s a = Except.ok ra)
    (hb : getRelation s b = Except.ok rb) :
    ∃ s1, swapRelation s a b = Except.ok s1 ∧
      StdMap.keys s1.environment = StdMap.keys s.environment ∧
      (∀ m, m ≠ a → m ≠ b → getRelation s1 m = getRelation s m) ∧
      s1.counter = s.counter ∧ s1.iteration = s.iteration ∧
      s1.indexScanIteratorPool = s.indexScanIteratorPool ∧
      s1.indexChoiceIteratorPool = s.indexChoiceIteratorPool ∧
      s1.scanIteratorPool = s.scanIteratorPool ∧
      s1.choiceIteratorPool = s.choiceIteratorPool := by
  have hka := mem_keys_of_getRelation s a ra ha
  have hkb := mem_keys_of_getRelation s b rb hb
  have hk1 : StdMap.keys (StdMap.assign s.environment a rb) = StdMap.keys s.environment :=
    StdMap.keys_assign_of_mem _ _ _ hka
  refine ⟨_, swapRelation_ok s a b ra rb ha hb, ?_, ?_, rfl, rfl, rfl, rfl, rfl, rfl⟩
  · show StdMap.keys (StdMap.assign (StdMap.assign s.environment a rb) b ra) = _
    rw [StdMap.keys_assign_of_mem _ _ _ (by rw [hk1]; exact hkb), hk1]
  · intro m hma hmb
    unfold getRelation
    show (match StdMap.find (StdMap.assign (StdMap.assign s.environment a rb) b ra) m with
      | none => Except.error Fault.assertFailed
      | some r => Except.ok r) = _
    rw [StdMap.find_assign_ne _ _ _ _ hmb, StdMap.find_assign_ne _ _ _ _ hma]

/-- C17, at the environment `edge ↦ 10, path ↦ 20, delta ↦ 30` with `edge` and `path`
swapped. -/
theorem swapRelation_frame_witness :
    ∃ s1, swapRelation ({ init with environment := [("edge", 10), ("path", 20), ("delta", 30)],
                                    counter := 5, iteration := 2 } : Interpreter Nat Nat)
        "edge" "path" = Except.ok s1 ∧
      StdMap.keys s1.environment = ["edge", "path", "delta"] ∧
      getRelation s1 "delta" = Except.ok 30 ∧ s1.counter = 5 ∧ s1.iteration = 2 :=
  (swapRelation_frame ({ init with environment := [("edge", 10), ("path", 20), ("delta", 30)],
                                   counter := 5, iteration := 2 } : Interpreter Nat Nat)
    "edge" "path" 10 20 (by decide) (by decide)).imp
    (fun _ h => ⟨h.1, h.2.1, (h.2.2.1 "delta" (by decide) (by decide)).trans (by decide),
      h.2.2.2.1, h.2.2.2.2.1⟩)

theorem with_environment_self (s : Interpreter IndexIter RelIter) :
    { s with environment := s.environment } = s := by
  cases s
  rfl

theorem swap_environment_same (env : relation_map) (a : String) (ra : RelationPtr)
    (ha : StdMap.find env a = some ra) :
    StdMap.assign (StdMap.assign env a ra) a ra = env := by
  rw [StdMap.assign_assign, StdMap.assign_of_find _ _ _ ha]

theorem swap_environment_twice (env : relation_map) (a b : String) (ra rb : RelationPtr)
    (ha : StdMap.find env a = some ra) (hb : StdMap.find env b = some rb) :
    StdMap.assign (StdMap.assign (StdMap.assign (StdMap.assign env a rb) b ra) a ra) b rb
      = env := by
  by_cases hab : a = b
  · subst hab
    have hr : ra = rb := by
      rw [ha] at hb
      exact Option.some.inj hb
    subst hr
    rw [swap_environment_same env a ra ha, swap_environment_same env a ra ha]
  · have hka : a ∈ StdMap.keys env := StdMap.mem_keys_of_find_eq_some _ _ _ ha
    have hkb : b ∈ StdMap.keys env := StdMap.mem_keys_of_find_eq_some _ _ _ hb
    have hk1 : StdMap.keys (StdMap.assign env a rb) = StdMap.keys env :=
      StdMap.keys_assign_of_mem _ _ _ hka
    rw [StdMap.assign_comm (StdMap.assign env a rb) b a ra ra (fun h => hab h.symm)
      (by rw [hk1]; exact hkb) (by rw [hk1]; exact hka)]
    rw [StdMap.assign_assign, StdMap.assign_assign, StdMap.assign_of_find _ _ _ ha,
      StdMap.assign_of_find _ _ _ hb]

/-- C18. In an environment where `a` and `b` are bound, `swapRelation(a, b)` followed by
`swapRelation(a, b)` gives back the interpreter it started from, its environment
included; `swapRelation(b, a)` gives the same result as `swapRelation(a, b)`; and
`swapRelation(a, a)` leaves the interpreter, its environment included, unchanged. -/
theorem swapRelation_involution (s : Interpreter IndexIter RelIter) (a b : String)
    (ra rb : RelationPtr) (ha : getRelation s a = Except.ok ra)
    (hb : getRelation s b = Except.ok rb) :
    (∃ s1, swapRelation s a b = Except.ok s1 ∧ swapRelation s1 a b = Except.ok s ∧
      ∃ s2, swapRelation s1 a b = Except.ok s2 ∧ s2.environment = s.environment) ∧
    swapRelation s b a = swapRelation s a b ∧
    (∃ s3, swapRelation s b a = Except.ok s3 ∧ ∃ s1, swapRelation s a b = Except.ok s1 ∧
      s3.environment = s1.environment) ∧
    swapRelation s a a = Except.ok s ∧
    (∃ s4, swapRelation s a a = Except.ok s4 ∧ s4.environment = s.environment) := by
  have hfa := (getRelation_eq_ok_iff s a ra).mp ha
  have hfb := (getRelation_eq_ok_iff s b rb).mp hb
  have hsym : swapRelation s b a = swapRelation s a b := by
    rw [swapRelation_ok s a b ra rb ha hb, swapRelation_ok s b a rb ra hb ha]
    by_cases hab : a = b
    · subst hab
      have hr : ra = rb := by
        rw [hfa] at hfb
        exact Option.some.inj hfb
      rw [hr]
    · rw [StdMap.assign_comm s.environment a b rb ra hab
        (StdMap.mem_keys_of_find_eq_some _ _ _ hfa) (StdMap.mem_keys_of_find_eq_some _ _ _ hfb)]
  have hsame : swapRelation s a a = Except.ok s := by
    rw [swapRelation_ok s a a ra ra ha ha, swap_environment_same _ a ra hfa,
      with_environment_self]
  have htwice : swapRelation
      { s with environment := StdMap.assign (StdMap.assign s.environment a rb) b ra } a b
        = Except.ok s := by
    obtain ⟨s1, h1, h1a, h1b⟩ := swapRelation_lookups s a b ra rb ha hb
    rw [swapRelation_ok s a b ra rb ha hb] at h1
    have h1eq := Except.ok.inj h1
    rw [← h1eq] at h1a h1b
    rw [swapRelation_ok _ a b rb ra h1a h1b]
    show Except.ok { s with environment := StdMap.assign (StdMap.assign
      (StdMap.assign (StdMap.assign s.environment a rb) b ra) a ra) b rb } = _
    rw [swap_environment_twice _ a b ra rb hfa hfb, with_environment_self]
  refine ⟨⟨_, swapRelation_ok s a b ra rb ha hb, htwice, s, htwice, rfl⟩, hsym,
    ⟨_, hsym.trans (swapRelation_ok s a b ra rb ha hb), _, swapRelation_ok s a b ra rb ha hb,
      rfl⟩, hsame, s, hsame, rfl⟩

/-- C18, at the environment `edge ↦ 10, path ↦ 20`. -/
theorem swapRelation_involution_witness :
    (∃ s1, swapRelation ({ init with environment := [("edge", 10), ("path", 20)] } :
          Interpreter Nat Nat) "edge" "path" = Except.ok s1 ∧
        swapRelation s1 "edge" "path" =
          Except.ok ({ init with environment := [("edge", 10), ("path", 20)] } :
            Interpreter Nat Nat)) ∧
    swapRelation ({ init with environment := [("edge", 10), ("path", 20)] } :
        Interpreter Nat Nat) "path" "edge" =
      swapRelation ({ init with environment := [("edge", 10), ("path", 20)] } :
        Interpreter Nat Nat) "edge" "path" ∧
    swapRelation ({ init with environment := [("edge", 10), ("path", 20)] } :
        Interpreter Nat Nat) "edge" "edge" =
      Except.ok ({ init with environment := [("edge", 10), ("path", 20)] } :
        Interpreter Nat Nat) :=
  have h := swapRelation_involution
    ({ init with environment := [("edge", 10), ("path", 20)] } : Interpreter Nat Nat)
    "edge" "path" 10 20 (by decide) (by decide)
  ⟨h.1.imp (fun _ h1 => ⟨h1.1, h1.2.1⟩), h.2.1, h.2.2.2.1⟩

/-! ## No relation object under two names -/

theorem find_swap_environment (env : relation_map) (a b : String) (ra rb : RelationPtr)
    (ha : StdMap.find env a = some ra) (hb : StdMap.find env b = some rb) (k : String) :
    StdMap.find (StdMap.assign (StdMap.assign env a rb) b ra) k =
      StdMap.find env (if k = a then b else if k = b then a else k) := by
  by_cases hkb : k = b
  · subst hkb
    rw [StdMap.find_assign_self]
    by_cases hka : k = a
    · subst hka
      rw [if_pos rfl, ha]
    · rw [if_neg hka, if_pos rfl, ha]
  · rw [StdMap.find_assign_ne _ _ _ _ hkb]
    by_cases hka : k = a
    · subst hka
      rw [StdMap.find_assign_self, if_pos rfl, hb]
    · rw [StdMap.find_assign_ne _ _ _ _ hka, if_neg hka, if_neg hkb]

theorem NoSharing_swap (env : relation_map) (a b : String) (ra rb : RelationPtr)
    (hns : NoSharing env) (ha : StdMap.find env a = some ra)
    (hb : StdMap.find env b = some rb) :
    NoSharing (StdMap.assign (StdMap.assign env a rb) b ra) := by
  intro k1 k2 rel h1 h2
  rw [find_swap_environment env a b ra rb ha hb] at h1 h2
  have h := hns _ _ rel h1 h2
  by_cases h1a : k1 = a <;> by_cases h1b : k1 = b <;> by_cases h2a : k2 = a <;>
    by_cases h2b : k2 = b <;> simp_all

theorem NoSharing_erase (env : relation_map) (n : String) (hns : NoSharing env) :
    NoSharing (StdMap.erase env n) := by
  intro k1 k2 rel h1 h2
  have hk1 : k1 ≠ n := by
    intro h
    rw [h, StdMap.find_erase_self] at h1
    exact Option.noConfusion h1
  have hk2 : k2 ≠ n := by
    intro h
    rw [h, StdMap.find_erase_self] at h2
    exact Option.noConfusion h2
  rw [StdMap.find_erase_ne _ _ _ hk1] at h1
  rw [StdMap.find_erase_ne _ _ _ hk2] at h2
  exact hns k1 k2 rel h1 h2

theorem values_nodup (env : relation_map) (hwf : StdMap.WF env) (hns : NoSharing env) :
    (env.map Prod.snd).Nodup := by
  induction env with
  | nil => exact List.nodup_nil
  | cons e t ih =>
    obtain ⟨k, v⟩ := e
    have hnd : k ∉ StdMap.keys t ∧ StdMap.WF t := by
      simpa [StdMap.WF, StdMap.keys] using hwf
    have hhead : StdMap.find ((k, v) :: t) k = some v := by simp [StdMap.find]
    have htail : ∀ k2 r, StdMap.find t k2 = some r → StdMap.find ((k, v) :: t) k2 = some r := by
      intro k2 r h
      have hne : ¬ k = k2 := by
        intro h2
        apply hnd.1
        rw [h2]
        exact StdMap.mem_keys_of_find_eq_some _ _ _ h
      simpa [StdMap.find, hne] using h
    rw [List.map_cons, List.nodup_cons]
    constructor
    · intro hmem
      obtain ⟨⟨k2, v2⟩, hmem2, hv⟩ := List.mem_map.mp hmem
      have hv2 : v2 = v := hv
      subst hv2
      have hf := StdMap.find_eq_some_of_mem t hnd.2 k2 v2 hmem2
      have hk := hns k k2 v2 hhead (htail k2 v2 hf)
      apply hnd.1
      rw [hk]
      exact StdMap.mem_keys_of_find_eq_some _ _ _ hf
    · apply ih hnd.2
      intro k1 k2 r h1 h2
      exact hns k1 k2 r (htail k1 r h1) (htail k2 r h2)

theorem NoSharing_of_values_nodup (env : relation_map) (h : (env.map Prod.snd).Nodup) :
    NoSharing env := by
  intro k1 k2 rel h1 h2
  have hm1 := StdMap.mem_of_find_eq_some env k1 rel h1
  have hm2 := StdMap.mem_of_find_eq_some env k2 rel h2
  exact (Prod.mk.inj (List.inj_on_of_nodup_map h hm1 hm2 rfl)).1

theorem destructor_nodup (s : Interpreter IndexIter RelIter)
    (hwf : StdMap.WF s.environment) (hns : NoSharing s.environment) :
    (destructor s).Nodup :=
  List.Nodup.filter _ (values_nodup s.environment hwf hns)

theorem not_mem_destructor_of_unbound (s : Interpreter IndexIter RelIter)
    (hwf : StdMap.WF s.environment) (rel : RelationPtr)
    (h : ∀ m, StdMap.find s.environment m ≠ some rel) : rel ∉ destructor s := by
  intro hmem
  have h1 : rel ∈ s.environment.map Prod.snd := (List.mem_filter.mp hmem).1
  obtain ⟨⟨k, v⟩, hkv, hv⟩ := List.mem_map.mp h1
  have hv2 : v = rel := hv
  subst hv2
  exact h k (StdMap.find_eq_some_of_mem _ hwf k v hkv)

/-- C16. Let the environment be a well-formed map in which no two distinct names are
bound to the same relation object, and let `a`, `b` and `n` be bound. Then
`swapRelation(a, b)` succeeds and leaves such an environment, in which `a` and `b`, when
distinct, are bound to distinct objects; `dropRelation(n)` succeeds and leaves such an
environment, in which no name is bound to the object dropped, so that the destructor
does not delete it again; and the destructor, run on the environment before or after
either call, hands no object to `delete` twice. -/
theorem no_sharing_preserved (s : Interpreter IndexIter RelIter) (a b n : String)
    (ra rb rn : RelationPtr) (hwf : StdMap.WF s.environment)
    (hns : NoSharing s.environment) (ha : getRelation s a = Except.ok ra)
    (hb : getRelation s b = Except.ok rb) (hn : getRelation s n = Except.ok rn) :
    (∃ s1, swapRelation s a b = Except.ok s1 ∧
      StdMap.WF s1.environment ∧ NoSharing s1.environment ∧
      (a ≠ b → getRelation s1 a ≠ getRelation s1 b) ∧ (destructor s1).Nodup) ∧
    (∃ s1, dropRelation s n = Except.ok s1 ∧
      StdMap.WF s1.environment ∧ NoSharing s1.environment ∧
      (∀ m, getRelation s1 m ≠ Except.ok rn) ∧ rn ∉ destructor s1 ∧
      (destructor s1).Nodup) ∧
    (destructor s).Nodup := by
  have hfa := (getRelation_eq_ok_iff s a ra).mp ha
  have hfb := (getRelation_eq_ok_iff s b rb).mp hb
  have hfn := (getRelation_eq_ok_iff s n rn).mp hn
  have hka := StdMap.mem_keys_of_find_eq_some _ _ _ hfa
  have hkb := StdMap.mem_keys_of_find_eq_some _ _ _ hfb
  have hwf1 : StdMap.WF (StdMap.assign (StdMap.assign s.environment a rb) b ra) :=
    StdMap.WF_assign_of_mem _ _ _
      (by rw [StdMap.keys_assign_of_mem _ _ _ hka]; exact hkb)
      (StdMap.WF_assign_of_mem _ _ _ hka hwf)
  have hns1 := NoSharing_swap s.environment a b ra rb hns hfa hfb
  have hwf2 : StdMap.WF (StdMap.erase s.environment n) := StdMap.WF_erase _ _ hwf
  have hns2 := NoSharing_erase s.environment n hns
  have hgone : ∀ m, StdMap.find (StdMap.erase s.environment n) m ≠ some rn := by
    intro m hm
    by_cases hmn : m = n
    · rw [hmn, StdMap.find_erase_self] at hm
      exact Option.noConfusion hm
    · rw [StdMap.find_erase_ne _ _ _ hmn] at hm
      exact hmn (hns m n rn hm hfn)
  refine ⟨⟨_, swapRelation_ok s a b ra rb ha hb, hwf1, hns1, ?_,
      destructor_nodup _ hwf1 hns1⟩,
    ⟨_, dropRelation_ok s n rn hn, hwf2, hns2, ?_,
      not_mem_destructor_of_unbound _ hwf2 rn hgone, destructor_nodup _ hwf2 hns2⟩,
    destructor_nodup s hwf hns⟩
  · intro hab heq
    obtain ⟨s1, h1, h1a, h1b⟩ := swapRelation_lookups s a b ra rb ha hb
    rw [swapRelation_ok s a b ra rb ha hb] at h1
    rw [← Except.ok.inj h1] at h1a h1b
    rw [h1a, h1b] at heq
    have hr : rb = ra := Except.ok.inj heq
    rw [hr] at hfb
    exact hab (hns a b ra hfa hfb)
  · intro m hm
    exact hgone m ((getRelation_eq_ok_iff _ m rn).mp hm)

/-- C16, at the environment `edge ↦ 10, path ↦ 20, delta ↦ 30`, with `edge` and `path`
swapped and `delta` dropped. -/
theorem no_sharing_preserved_witness :
    (∃ s1, swapRelation ({ init with environment := [("edge", 10), ("path", 20), ("delta", 30)] } :
          Interpreter Nat Nat) "edge" "path" = Except.ok s1 ∧
      NoSharing s1.environment ∧
      getRelation s1 "edge" ≠ getRelation s1 "path" ∧ (destructor s1).Nodup) ∧
    (∃ s1, dropRelation ({ init with environment := [("edge", 10), ("path", 20), ("delta", 30)] } :
          Interpreter Nat Nat) "delta" = Except.ok s1 ∧
      NoSharing s1.environment ∧ 30 ∉ destructor s1 ∧ (destructor s1).Nodup) ∧
    (destructor ({ init with environment := [("edge", 10), ("path", 20), ("delta", 30)] } :
      Interpreter Nat Nat)).Nodup :=
  have hns : NoSharing ([("edge", 10), ("path", 20), ("delta", 30)] : relation_map) :=
    NoSharing_of_values_nodup _ (by decide)
  have h := no_sharing_preserved
    ({ init with environment := [("edge", 10), ("path", 20), ("delta", 30)] } :
      Interpreter Nat Nat)
    "edge" "path" "delta" 10 20 30 (by decide) hns (by decide) (by decide) (by decide)
  ⟨h.1.imp (fun _ h1 => ⟨h1.1, h1.2.2.1, h1.2.2.2.1 (by decide), h1.2.2.2.2⟩),
   h.2.1.imp (fun _ h1 => ⟨h1.1, h1.2.2.1, h1.2.2.2.2.1, h1.2.2.2.2.2⟩), h.2.2⟩

end Interpreter

end souffle
